import Mathlib

/-!
# ICMP receiver: configuration validation and scrape orchestration

A shallow embedding of `config.go` and `receiver.go` of the ICMP check receiver.

* Durations (`time.Duration`) and `int` values are integers; a duration counts nanoseconds.
  The code only compares them against constants, so no wrap-around is involved.
* A nilable pointer to a primitive (`*int`, `*time.Duration`) is an `Option`.
* The process-wide map `globalTargets : map[string]bool` only ever receives the value `true`;
  it is represented by the list of its keys, and `globalTargets[k]` is membership.
* An `error` built up with `multierr.Append` is the list of the appended errors; the `nil`
  error is the empty list.
-/

namespace icmpreceiver

/-! ## Constants (`receiver.go`) -/

def AttrPeerIp : String := "net.peer.ip"
def AttrPeerName : String := "net.peer.name"
def AttrTag : String := "tag"
def TagNotSet : String := "NA"

/-- One second, as a `time.Duration` (nanoseconds). -/
def Second : Int := 1000000000

/-! ## Configuration (`config.go`) -/

/-- The fields of `scraperhelper.ControllerConfig`, embedded (squashed) into `Config`. -/
structure ControllerConfig where
  CollectionInterval : Int
  InitialDelay : Int
  Timeout : Int
  deriving DecidableEq, Repr

structure Target where
  Target : String
  PingCount : Option Int
  PingTimeout : Option Int
  deriving DecidableEq, Repr

structure Config extends ControllerConfig where
  Targets : List Target
  DefaultPingCount : Int
  DefaultPingTimeout : Int
  Tag : String
  deriving DecidableEq, Repr

/-- The errors `Config.Validate` appends, one constructor per `fmt.Errorf` call site, carrying
the values that are formatted into the message. -/
inductive ValidationError where
  /-- The message `"collection_interval": requires positive value`. -/
  | collectionInterval
  /-- The message `[<tag>] "tag": cannot contain spaces`. -/
  | tagSpaces (tag : String)
  /-- The message `"timeout": requires positive value`. -/
  | timeout
  /-- The message `"default_ping_count": cannot be lesser than 3`. -/
  | defaultPingCount
  /-- The message `"default_ping_timeout": cannot be lesser than 5s`. -/
  | defaultPingTimeout
  /-- The message `"targets": cannot be empty or nil`. -/
  | targetsEmpty
  /-- The message `target #<i> has invalid ping_count <v>`. -/
  | invalidPingCount (i : Nat) (v : Int)
  /-- The message `target #<i> has invalid ping_timeout <v>`. -/
  | invalidPingTimeout (i : Nat) (v : Int)
  /-- The message `target #<n> with value **"<target>"** is duplicated`. -/
  | duplicated (n : Nat) (target : String)
  deriving DecidableEq, Repr

/-- The function `containsSpaces`: some rune of the string is the space character. -/
def containsSpaces (s : String) : Bool :=
  s.toList.any (fun r => r == ' ')

/-- The body of the `for i, target := range c.Targets` loop of `Config.Validate`, from index `i`
on: `errs` is the error accumulated so far and `globalTargets` the registry. -/
def validateTargets : List Target → Nat → List ValidationError → List String →
    List ValidationError × List String
  | [], _, errs, globalTargets => (errs, globalTargets)
  | target :: rest, i, errs, globalTargets =>
    let errs :=
      match target.PingCount with
      | some n => if n < 1 then errs ++ [ValidationError.invalidPingCount i n] else errs
      | none => errs
    let errs :=
      match target.PingTimeout with
      | some d => if d ≤ 1 * Second then errs ++ [ValidationError.invalidPingTimeout i d] else errs
      | none => errs
    if target.Target ∈ globalTargets then
      validateTargets rest (i + 1)
        (errs ++ [ValidationError.duplicated (i + 1) target.Target]) globalTargets
    else
      validateTargets rest (i + 1) errs (target.Target :: globalTargets)

/-- What a call of `Config.Validate` leaves behind: the receiver `c` as mutated by the call, the
registry after the call, and the returned error. -/
structure ValidateResult where
  config : Config
  globalTargets : List String
  errs : List ValidationError
  deriving DecidableEq, Repr

/-- The method `Config.Validate`, run on configuration `c` with registry `globalTargets`. -/
def Validate (c : Config) (globalTargets : List String) : ValidateResult :=
  let errs : List ValidationError := []
  let errs := if c.CollectionInterval ≤ 0 then errs ++ [ValidationError.collectionInterval] else errs
  let tagEmpty := decide (c.Tag = "")
  let errs :=
    if tagEmpty then errs
    else if containsSpaces c.Tag then errs ++ [ValidationError.tagSpaces c.Tag] else errs
  let c : Config := if tagEmpty then { c with Tag := TagNotSet } else c
  let errs := if c.Timeout < 0 then errs ++ [ValidationError.timeout] else errs
  let errs := if c.DefaultPingCount < 3 then errs ++ [ValidationError.defaultPingCount] else errs
  let errs :=
    if c.DefaultPingTimeout < 5 * Second then errs ++ [ValidationError.defaultPingTimeout] else errs
  let errs := if c.Targets.length = 0 then errs ++ [ValidationError.targetsEmpty] else errs
  let r := validateTargets c.Targets 0 errs globalTargets
  { config := c, globalTargets := r.2, errs := r.1 }

/-! ## Errors of the probe path (`receiver.go`)

An `error` value is the chain that `fmt.Errorf` with `%w` builds. -/

/-- The text a `fmt.Errorf` call puts in front of the error it wraps. -/
inductive WrapContext where
  /-- In `ping`: `failed to create pinger: %w`. -/
  | createPinger
  /-- In `ping`: `failed to run pinger: %w`. -/
  | runPinger
  /-- In `Scrape`: `failed to execute pinger for target %q: %w`, with the target string. -/
  | executePinger (target : String)
  /-- A wrapping done outside this package, with its text. -/
  | external (text : String)
  deriving DecidableEq, Repr

inductive GoError where
  /-- A `*net.DNSError`. -/
  | dnsError (name : String)
  /-- An error of any other type that wraps nothing. -/
  | other (text : String)
  /-- The result of `fmt.Errorf` with one `%w` verb. -/
  | wrap (ctx : WrapContext) (err : GoError)
  deriving DecidableEq, Repr

/-- The test `errors.As(err, &dnsErr)` with `dnsErr` of type `*net.DNSError`: some error of the
chain is a DNS error. -/
def asDNSError : GoError → Bool
  | .dnsError _ => true
  | .other _ => false
  | .wrap _ err => asDNSError err

/-! ## The ICMP engine (`probing`) and the results of a probe

The engine is an external collaborator. It is a pair of operations on an explicit state `W` of
the world outside the receiver (network, resolver, clock): each call consumes the state and
returns the next one. Values of type `float64` are rational numbers, with exact arithmetic. A
`time.Time` is its count of nanoseconds since the Unix epoch. -/

/-- The fields of `probing.Packet` the receiver reads. -/
structure Packet where
  Rtt : Int
  Addr : String
  Nbytes : Int
  Seq : Int
  deriving DecidableEq, Repr

/-- A received packet with the local time of its receipt (`packet`). -/
structure packet where
  Timestamp : Int
  Packet : Packet
  deriving DecidableEq, Repr

/-- The fields of `probing.Statistics` the receiver reads; `IPAddr` is the text that
`IPAddr.IP.String()` gives. -/
structure Statistics where
  PacketsRecv : Int
  PacketsSent : Int
  PacketLoss : ℚ
  IPAddr : String
  Addr : String
  MinRtt : Int
  MaxRtt : Int
  AvgRtt : Int
  StdDevRtt : Int
  deriving DecidableEq, Repr

structure pingResult where
  Packets : List packet
  Stats : Statistics
  StatsTimestamp : Int
  tag : String
  deriving DecidableEq, Repr

/-- The fields of `probing.Pinger` the receiver sets, with the address it was created for. -/
structure Pinger where
  addr : String
  Count : Int
  Timeout : Int
  deriving DecidableEq, Repr

/-- What a run of the pinger that returns no error has produced when `ping` returns: the packets
handed to the `OnRecv` callback, in order, each with the reading of `time.Now()` the callback
took; the value of `pinger.Statistics()`; and the reading of `time.Now()` taken after it. -/
structure RunOutcome where
  received : List packet
  statistics : Statistics
  finished : Int
  deriving DecidableEq, Repr

structure Engine (W : Type) where
  /-- The constructor `probing.NewPinger(addr)`. -/
  NewPinger : String → W → Except GoError Pinger × W
  /-- The method `pinger.Run()`, with the callbacks and clock readings around it. -/
  Run : Pinger → W → Except GoError RunOutcome × W

structure pingScraper where
  collectionInterval : Int
  targets : List Target
  defaultPingCount : Int
  defaultPingTimeout : Int
  tag : String
  deriving DecidableEq, Repr

/-- The function `newPingScraper`; it returns no error. -/
def newPingScraper (receiverCfg : Config) : pingScraper :=
  { collectionInterval := receiverCfg.CollectionInterval
    targets := receiverCfg.Targets
    defaultPingCount := receiverCfg.DefaultPingCount
    defaultPingTimeout := receiverCfg.DefaultPingTimeout
    tag := receiverCfg.Tag }

/-- The method `pingScraper.ping`. The empty `pingResult` that the code returns next to an error
is never read by the caller and is left out. -/
def ping {W : Type} (s : pingScraper) (eng : Engine W) (target : Target) (w : W) :
    Except GoError pingResult × W :=
  match eng.NewPinger target.Target w with
  | (.error err, w) => (.error (GoError.wrap WrapContext.createPinger err), w)
  | (.ok pinger, w) =>
    let pinger : Pinger :=
      match target.PingCount with
      | some n => { pinger with Count := n }
      | none => { pinger with Count := s.defaultPingCount }
    let pinger : Pinger :=
      match target.PingTimeout with
      | some d => { pinger with Timeout := d }
      | none => { pinger with Timeout := s.defaultPingTimeout }
    match eng.Run pinger w with
    | (.error err, w) => (.error (GoError.wrap WrapContext.runPinger err), w)
    | (.ok out, w) =>
      (.ok { Packets := out.received, Stats := out.statistics, StatsTimestamp := out.finished,
             tag := "" }, w)

/-! ## Metrics (`pmetric`, `pcommon`) -/

/-- The conversion `pcommon.NewTimestampFromTime`: the nanoseconds since the epoch as an
unsigned 64-bit number. -/
def NewTimestampFromTime (t : Int) : Nat := (t % 2 ^ 64).toNat

/-- The method `Map.PutStr`: replace the value of an existing key, else append the entry. -/
def PutStr (m : List (String × String)) (k v : String) : List (String × String) :=
  if m.any (fun p => p.1 == k) then m.map (fun p => if p.1 == k then (k, v) else p)
  else m ++ [(k, v)]

structure NumberDataPoint where
  value : ℚ
  timestamp : Nat
  attributes : List (String × String)
  deriving DecidableEq, Repr

/-- A metric holding a gauge. -/
structure Metric where
  name : String
  unit : String
  dataPoints : List NumberDataPoint
  deriving DecidableEq, Repr

structure ScopeMetrics where
  metrics : List Metric
  deriving DecidableEq, Repr

structure ResourceMetrics where
  scopeMetrics : List ScopeMetrics
  deriving DecidableEq, Repr

structure Metrics where
  resourceMetrics : List ResourceMetrics
  deriving DecidableEq, Repr

/-- The constructor `pmetric.NewMetrics()`: a batch with no resource. -/
def NewMetrics : Metrics := { resourceMetrics := [] }

/-- The number of data points of a batch, over all its metrics. -/
def Metrics.dataPointCount (m : Metrics) : Nat :=
  (m.resourceMetrics.map (fun r =>
    (r.scopeMetrics.map (fun sc => (sc.metrics.map (fun x => x.dataPoints.length)).sum)).sum)).sum

/-- The function `appendPacketDataPoint`. -/
def appendPacketDataPoint (metricDataPoints : List NumberDataPoint) (value : ℚ) (pkt : packet)
    (pingRes : pingResult) : List NumberDataPoint :=
  let stats := pingRes.Stats
  metricDataPoints ++
    [{ value := value
       timestamp := NewTimestampFromTime pkt.Timestamp
       attributes :=
        PutStr (PutStr (PutStr [] AttrPeerIp pkt.Packet.Addr) AttrPeerName stats.Addr)
          AttrTag pingRes.tag }]

/-- The function `appendStatsDataPoint`. -/
def appendStatsDataPoint (metricDataPoints : List NumberDataPoint) (value : ℚ)
    (pingRes : pingResult) : List NumberDataPoint :=
  metricDataPoints ++
    [{ value := value
       timestamp := NewTimestampFromTime pingRes.StatsTimestamp
       attributes :=
        PutStr (PutStr (PutStr [] AttrPeerIp pingRes.Stats.IPAddr) AttrPeerName pingRes.Stats.Addr)
          AttrTag pingRes.tag }]

/-! ## Scraping (`receiver.go`) -/

/-- The six data point slices `Scrape` fills, named after the local variables that hold them. -/
structure DataPoints where
  rttMetricDataPoints : List NumberDataPoint
  minRttMetricDataPoints : List NumberDataPoint
  maxRttMetricDataPoints : List NumberDataPoint
  avgRttMetricDataPoints : List NumberDataPoint
  stddevRttMetricDataPoints : List NumberDataPoint
  lossRatioMetricDataPoints : List NumberDataPoint
  deriving DecidableEq, Repr

/-- The part of the loop body of `Scrape` that follows a successful `ping`: tag the result, add
one `ping.rtt` point per packet, then the five points of the statistics. -/
def appendResult (tag : String) (dps : DataPoints) (pingRes : pingResult) : DataPoints :=
  let pingRes := { pingRes with tag := tag }
  let rtt := pingRes.Packets.foldl
    (fun acc pkt => appendPacketDataPoint acc ((pkt.Packet.Rtt : ℚ) / 1000000) pkt pingRes)
    dps.rttMetricDataPoints
  let loss := appendStatsDataPoint dps.lossRatioMetricDataPoints
    (pingRes.Stats.PacketLoss / 100) pingRes
  let min := appendStatsDataPoint dps.minRttMetricDataPoints
    ((pingRes.Stats.MinRtt : ℚ) / 1000000) pingRes
  let max := appendStatsDataPoint dps.maxRttMetricDataPoints
    ((pingRes.Stats.MaxRtt : ℚ) / 1000000) pingRes
  let avg := appendStatsDataPoint dps.avgRttMetricDataPoints
    ((pingRes.Stats.AvgRtt : ℚ) / 1000000) pingRes
  let stddev := appendStatsDataPoint dps.stddevRttMetricDataPoints
    ((pingRes.Stats.StdDevRtt : ℚ) / 1000000) pingRes
  { rttMetricDataPoints := rtt, minRttMetricDataPoints := min, maxRttMetricDataPoints := max,
    avgRttMetricDataPoints := avg, stddevRttMetricDataPoints := stddev,
    lossRatioMetricDataPoints := loss }

/-- The loop `for _, target := range s.targets` of `Scrape`: `continue` on an error that is a
DNS error, return the wrapped error on any other, else add the points of the result. -/
def scrapeTargets {W : Type} (s : pingScraper) (eng : Engine W) :
    List Target → DataPoints → W → Except GoError DataPoints × W
  | [], dps, w => (.ok dps, w)
  | target :: rest, dps, w =>
    match ping s eng target w with
    | (.error err, w) =>
      if asDNSError err then scrapeTargets s eng rest dps w
      else (.error (GoError.wrap (WrapContext.executePinger target.Target) err), w)
    | (.ok pingRes, w) => scrapeTargets s eng rest (appendResult s.tag dps pingRes) w

/-- The batch `Scrape` returns after the loop: one resource, one scope, the six metrics in the
order of their creation; `ping.loss.ratio` has no unit. -/
def batch (dps : DataPoints) : Metrics :=
  { resourceMetrics := [{ scopeMetrics := [{ metrics :=
      [{ name := "ping.rtt", unit := "ms", dataPoints := dps.rttMetricDataPoints },
       { name := "ping.rtt.min", unit := "ms", dataPoints := dps.minRttMetricDataPoints },
       { name := "ping.rtt.max", unit := "ms", dataPoints := dps.maxRttMetricDataPoints },
       { name := "ping.rtt.avg", unit := "ms", dataPoints := dps.avgRttMetricDataPoints },
       { name := "ping.rtt.stddev", unit := "ms", dataPoints := dps.stddevRttMetricDataPoints },
       { name := "ping.loss.ratio", unit := "", dataPoints := dps.lossRatioMetricDataPoints }] }] }] }

/-- The six slices as created at the start of `Scrape`, all empty. -/
def emptyDataPoints : DataPoints :=
  { rttMetricDataPoints := [], minRttMetricDataPoints := [], maxRttMetricDataPoints := [],
    avgRttMetricDataPoints := [], stddevRttMetricDataPoints := [],
    lossRatioMetricDataPoints := [] }

/-- The method `pingScraper.Scrape`: the batch, the error (`none` for `nil`) and the state of
the world it leaves. -/
def Scrape {W : Type} (s : pingScraper) (eng : Engine W) (w : W) :
    (Metrics × Option GoError) × W :=
  match scrapeTargets s eng s.targets emptyDataPoints w with
  | (.error err, w) => ((NewMetrics, some err), w)
  | (.ok dps, w) => ((batch dps, none), w)

/-! ## Observing the probes of a scrape -/

/-- The outcomes of probing the given targets one after the other, each probe starting in the
state the previous one left, and the state after the last. -/
def probeAll {W : Type} (s : pingScraper) (eng : Engine W) :
    List Target → W → List (Except GoError pingResult) × W
  | [], w => ([], w)
  | target :: rest, w =>
    ((ping s eng target w).1 :: (probeAll s eng rest (ping s eng target w).2).1,
      (probeAll s eng rest (ping s eng target w).2).2)

/-- A probe outcome that `Scrape` skips: an error whose chain holds a DNS error. -/
def skipped : Except GoError pingResult → Bool
  | .error err => asDNSError err
  | .ok _ => false

/-- A probe outcome that aborts `Scrape`: an error whose chain holds no DNS error. -/
def fatal : Except GoError pingResult → Bool
  | .error err => !asDNSError err
  | .ok _ => false

/-- A probe outcome that is a success. -/
def succeeded : Except GoError pingResult → Bool
  | .error _ => false
  | .ok _ => true

/-- The results of the outcomes that are successes, in order. -/
def successes : List (Except GoError pingResult) → List pingResult
  | [] => []
  | .ok res :: rest => res :: successes rest
  | .error _ :: rest => successes rest

/-- The targets of a scrape that are left when those whose outcome is skipped are removed;
`outs` lists the outcomes of the targets `ts`, position by position. -/
def keptTargets (ts : List Target) (outs : List (Except GoError pingResult)) : List Target :=
  ((ts.zip outs).filter (fun p => !skipped p.2)).map Prod.fst

/-- The `ping.rtt` point of a packet of a result, as the specification describes it. -/
def packetPoint (tag : String) (res : pingResult) (pkt : packet) : NumberDataPoint :=
  { value := (pkt.Packet.Rtt : ℚ) / 1000000
    timestamp := NewTimestampFromTime pkt.Timestamp
    attributes := [("net.peer.ip", pkt.Packet.Addr), ("net.peer.name", res.Stats.Addr),
      ("tag", tag)] }

/-- The point of an aggregate stream for a result, as the specification describes it: the given
value, the completion time of the statistics, and the resolved IP, the resolved address and the
tag as attributes. -/
def statsPoint (tag : String) (res : pingResult) (value : ℚ) : NumberDataPoint :=
  { value := value
    timestamp := NewTimestampFromTime res.StatsTimestamp
    attributes := [("net.peer.ip", res.Stats.IPAddr), ("net.peer.name", res.Stats.Addr),
      ("tag", tag)] }

/-- The loss percentage as the `probing` engine reports it in its statistics: the share of the
packets sent that were not received, times 100. -/
def reportsLossPercentage (stats : Statistics) : Prop :=
  stats.PacketLoss =
    ((stats.PacketsSent - stats.PacketsRecv : Int) : ℚ) / (stats.PacketsSent : ℚ) * 100

/-! ## Validation: auxiliary definitions -/

/-- The registry after `Config.Validate` has been called on the given configurations, one after
the other, each call starting with the registry the previous one left. -/
def registryAfter : List Config → List String → List String
  | [], globalTargets => globalTargets
  | c :: rest, globalTargets => registryAfter rest (Validate c globalTargets).globalTargets


/-- The errors one loop iteration appends for the target at index `i`, given whether the
target string is already registered. -/
def iterationErrors (i : Nat) (target : Target) (registered : Bool) : List ValidationError :=
  (match target.PingCount with
    | some n => if n < 1 then [ValidationError.invalidPingCount i n] else []
    | none => []) ++
  (match target.PingTimeout with
    | some d => if d ≤ 1 * Second then [ValidationError.invalidPingTimeout i d] else []
    | none => []) ++
  (if registered then [ValidationError.duplicated (i + 1) target.Target] else [])

/-- The errors `Config.Validate` appends before it enters the loop over the targets. -/
def fieldErrors (c : Config) : List ValidationError :=
  (if c.CollectionInterval ≤ 0 then [ValidationError.collectionInterval] else []) ++
  (if containsSpaces c.Tag then [ValidationError.tagSpaces c.Tag] else []) ++
  (if c.Timeout < 0 then [ValidationError.timeout] else []) ++
  (if c.DefaultPingCount < 3 then [ValidationError.defaultPingCount] else []) ++
  (if c.DefaultPingTimeout < 5 * Second then [ValidationError.defaultPingTimeout] else []) ++
  (if c.Targets = [] then [ValidationError.targetsEmpty] else [])

/-- The position an error refers to, counted as the loop index of the iteration that appends
it; errors of the fields before the loop have none. -/
def ValidationError.position : ValidationError → Option Nat
  | .invalidPingCount i _ => some i
  | .invalidPingTimeout i _ => some i
  | .duplicated n _ => some (n - 1)
  | _ => none

/-- The rules of the specification, read as a predicate on errors: `ruleViolated c registry e`
says that the rule whose violation `e` reports is violated by configuration `c` when the registry
holds `registry` at the start of the call. A target string counts as duplicate when it is in the
registry or occurs at an earlier position of the target list. -/
def ruleViolated (c : Config) (registry : List String) : ValidationError → Prop
  | .collectionInterval => c.CollectionInterval ≤ 0
  | .tagSpaces tag => tag = c.Tag ∧ ' ' ∈ c.Tag.toList
  | .timeout => c.Timeout < 0
  | .defaultPingCount => c.DefaultPingCount < 3
  | .defaultPingTimeout => c.DefaultPingTimeout < 5 * Second
  | .targetsEmpty => c.Targets = []
  | .invalidPingCount i v => ∃ t, c.Targets[i]? = some t ∧ t.PingCount = some v ∧ v < 1
  | .invalidPingTimeout i v =>
      ∃ t, c.Targets[i]? = some t ∧ t.PingTimeout = some v ∧ v ≤ 1 * Second
  | .duplicated n s =>
      ∃ i t, n = i + 1 ∧ c.Targets[i]? = some t ∧ t.Target = s ∧
        (s ∈ registry ∨ ∃ j u, j < i ∧ c.Targets[j]? = some u ∧ u.Target = s)

/-! ## Sample configurations -/

/-- A configuration whose only defect is a default ping count of 2: one target `a.test`,
defaults otherwise in bounds, tag `prod`. -/
def retryConfig : Config :=
  { CollectionInterval := 10 * Second, InitialDelay := 1 * Second, Timeout := 0,
    Targets := [{ Target := "a.test", PingCount := none, PingTimeout := none }],
    DefaultPingCount := 2, DefaultPingTimeout := 5 * Second, Tag := "prod" }

/-- The configuration `retryConfig` with the default ping count corrected to 3. -/
def retryConfigFixed : Config := { retryConfig with DefaultPingCount := 3 }

/-- The configuration of the invalid-no-targets test: interval 0, default ping count 2, default
ping timeout 1s, no targets, no tag. -/
def noTargetsConfig : Config :=
  { CollectionInterval := 0, InitialDelay := 1 * Second, Timeout := 0, Targets := [],
    DefaultPingCount := 2, DefaultPingTimeout := 1 * Second, Tag := "" }

/-- A configuration with a repeated target string: `localhost1` at positions 0 and 2. -/
def duplicateConfig : Config :=
  { CollectionInterval := 10 * Second, InitialDelay := 1 * Second, Timeout := 0,
    Targets := [{ Target := "localhost1", PingCount := none, PingTimeout := none },
      { Target := "localhost5", PingCount := some 4, PingTimeout := none },
      { Target := "localhost1", PingCount := none, PingTimeout := some (2 * Second) }],
    DefaultPingCount := 3, DefaultPingTimeout := 5 * Second, Tag := "" }

/-! ## A sample engine -/

/-- A call of the engine, as the sample engine records it. -/
inductive EngineCall where
  | newPinger (addr : String)
  | run (pinger : Pinger)
  deriving DecidableEq, Repr

/-- The statistics the sample engine reports for an address. -/
def sampleStatistics (addr : String) (sent recv : Int) (loss : ℚ) : Statistics :=
  { PacketsRecv := recv, PacketsSent := sent, PacketLoss := loss, IPAddr := "192.0.2.1",
    Addr := addr, MinRtt := 11000000, MaxRtt := 13000000, AvgRtt := 12000000,
    StdDevRtt := 1000000 }

/-- An engine that appends every call to the state. The name `invalid.target.com` does not
resolve (a DNS error); creating a pinger for `bad address` fails otherwise; running against
`denied.test` fails; `silent.test` answers none of the packets sent; for any other address two
packets are sent and both are answered. -/
def sampleEngine : Engine (List EngineCall) where
  NewPinger addr w :=
    if addr = "invalid.target.com" then
      (.error (GoError.dnsError addr), w ++ [EngineCall.newPinger addr])
    else if addr = "bad address" then
      (.error (GoError.other "invalid address"), w ++ [EngineCall.newPinger addr])
    else (.ok { addr := addr, Count := -1, Timeout := 0 }, w ++ [EngineCall.newPinger addr])
  Run pinger w :=
    if pinger.addr = "denied.test" then
      (.error (GoError.other "socket: permission denied"), w ++ [EngineCall.run pinger])
    else if pinger.addr = "silent.test" then
      (.ok { received := [], statistics := sampleStatistics pinger.addr pinger.Count 0 100,
             finished := 1700000009000000000 }, w ++ [EngineCall.run pinger])
    else
      (.ok { received :=
              [{ Timestamp := 1700000001000000000,
                 Packet := { Rtt := 11000000, Addr := "192.0.2.1", Nbytes := 24, Seq := 0 } },
               { Timestamp := 1700000002000000000,
                 Packet := { Rtt := 13000000, Addr := "192.0.2.1", Nbytes := 24, Seq := 1 } }],
             statistics := sampleStatistics pinger.addr 2 2 0,
             finished := 1700000003000000000 }, w ++ [EngineCall.run pinger])

/-- A scraper with defaults 4 and 5s, tag `prod`, over the given target names. -/
def sampleScraper (names : List String) : pingScraper :=
  { collectionInterval := 60 * Second
    targets := names.map (fun n => { Target := n, PingCount := none, PingTimeout := none })
    defaultPingCount := 4, defaultPingTimeout := 5 * Second, tag := "prod" }

/-! ## Validation: auxiliary facts -/

theorem validateTargets_cons (target : Target) (rest : List Target) (i : Nat)
    (errs : List ValidationError) (reg : List String) :
    validateTargets (target :: rest) i errs reg =
      validateTargets rest (i + 1)
        (errs ++ iterationErrors i target (decide (target.Target ∈ reg)))
        (if target.Target ∈ reg then reg else target.Target :: reg) := by
  unfold iterationErrors
  rw [validateTargets]
  by_cases h : target.Target ∈ reg <;>
    rcases hc : target.PingCount with _ | n <;> rcases ht : target.PingTimeout with _ | d <;>
    simp [h] <;> split_ifs <;> simp

theorem iterationErrors_eq_nil (i : Nat) (target : Target) (registered : Bool) :
    iterationErrors i target registered = [] ↔
      (∀ n, target.PingCount = some n → 1 ≤ n) ∧
      (∀ d, target.PingTimeout = some d → Second < d) ∧ registered = false := by
  unfold iterationErrors
  rcases hc : target.PingCount with _ | n <;> rcases ht : target.PingTimeout with _ | d <;>
    cases registered <;> simp

theorem validateTargets_errs_eq_nil (ts : List Target) :
    ∀ (i : Nat) (errs : List ValidationError) (reg : List String),
      (validateTargets ts i errs reg).1 = [] ↔
        errs = [] ∧ (∀ t ∈ ts, ∀ n, t.PingCount = some n → 1 ≤ n) ∧
        (∀ t ∈ ts, ∀ d, t.PingTimeout = some d → Second < d) ∧
        (ts.map (fun t => t.Target)).Nodup ∧ ∀ t ∈ ts, t.Target ∉ reg := by
  induction ts with
  | nil => intro i errs reg; simp [validateTargets]
  | cons t rest ih =>
    intro i errs reg
    rw [validateTargets_cons, ih, List.append_eq_nil, iterationErrors_eq_nil]
    by_cases h : t.Target ∈ reg
    · simp [h]
    · simp only [h, if_false, decide_False, List.mem_cons, List.map_cons, List.nodup_cons,
        List.mem_map, not_or, forall_eq_or_imp]
      constructor
      · rintro ⟨⟨he, hc, ht, -⟩, hcs, hts, hnd, hreg⟩
        refine ⟨he, ⟨hc, hcs⟩, ⟨ht, hts⟩, ⟨?_, hnd⟩, not_false, fun a ha => (hreg a ha).2⟩
        rintro ⟨a, ha, hEq⟩
        exact (hreg a ha).1 hEq
      · rintro ⟨he, ⟨hc, hcs⟩, ⟨ht, hts⟩, ⟨hn, hnd⟩, -, hreg⟩
        refine ⟨⟨he, hc, ht, trivial⟩, hcs, hts, hnd, fun a ha => ⟨?_, hreg a ha⟩⟩
        intro hEq
        exact hn ⟨a, ha, hEq⟩

theorem containsSpaces_iff (s : String) : containsSpaces s = true ↔ ' ' ∈ s.toList := by
  simp [containsSpaces]

theorem validateTargets_errs_append (ts : List Target) :
    ∀ (i : Nat) (errs : List ValidationError) (reg : List String),
      validateTargets ts i errs reg =
        (errs ++ (validateTargets ts i [] reg).1, (validateTargets ts i [] reg).2) := by
  induction ts with
  | nil => intro i errs reg; simp [validateTargets]
  | cons t rest ih =>
    intro i errs reg
    rw [validateTargets_cons, validateTargets_cons t rest i [], ih, ih (i + 1) ([] ++ _)]
    simp

theorem containsSpaces_empty : containsSpaces "" = false := by
  simp [containsSpaces]

theorem Validate_errs (c : Config) (reg : List String) :
    (Validate c reg).errs = fieldErrors c ++ (validateTargets c.Targets 0 [] reg).1 := by
  simp only [Validate]
  rw [validateTargets_errs_append]
  by_cases htag : c.Tag = ""
  · simp only [fieldErrors, htag, decide_True, if_true, containsSpaces_empty,
      List.length_eq_zero, List.nil_append, Bool.false_eq_true, if_false]
    split_ifs <;> simp
  · simp only [fieldErrors, htag, decide_False, if_false, List.length_eq_zero, List.nil_append,
      Bool.false_eq_true]
    split_ifs <;> simp

theorem Validate_globalTargets (c : Config) (reg : List String) :
    (Validate c reg).globalTargets = (validateTargets c.Targets 0 [] reg).2 := by
  simp only [Validate]
  rw [validateTargets_errs_append]
  by_cases htag : c.Tag = "" <;> simp [htag]

theorem fieldErrors_eq_nil (c : Config) :
    fieldErrors c = [] ↔
      (0 < c.CollectionInterval ∧ 0 ≤ c.Timeout ∧ 3 ≤ c.DefaultPingCount ∧
        5 * Second ≤ c.DefaultPingTimeout ∧ c.Targets ≠ [] ∧ ' ' ∉ c.Tag.toList) := by
  have hsp := containsSpaces_iff c.Tag
  unfold fieldErrors
  simp only [List.append_eq_nil, ite_eq_right_iff, List.cons_ne_nil, imp_false, not_le, not_lt,
    hsp]
  tauto

theorem mem_iterationErrors (i : Nat) (target : Target) (registered : Bool)
    (e : ValidationError) :
    e ∈ iterationErrors i target registered ↔
      (∃ n, target.PingCount = some n ∧ n < 1 ∧ e = ValidationError.invalidPingCount i n) ∨
      (∃ d, target.PingTimeout = some d ∧ d ≤ 1 * Second ∧
        e = ValidationError.invalidPingTimeout i d) ∨
      (registered = true ∧ e = ValidationError.duplicated (i + 1) target.Target) := by
  unfold iterationErrors
  rcases hc : target.PingCount with _ | n <;> rcases ht : target.PingTimeout with _ | d <;>
    cases registered <;> simp

theorem iterationErrors_nodup (i : Nat) (target : Target) (registered : Bool) :
    (iterationErrors i target registered).Nodup := by
  unfold iterationErrors
  rcases hc : target.PingCount with _ | n <;> rcases ht : target.PingTimeout with _ | d <;>
    cases registered <;> simp <;> split_ifs <;> simp

theorem mem_registry_step (t : Target) (reg : List String) (x : String) :
    x ∈ (if t.Target ∈ reg then reg else t.Target :: reg) ↔ x ∈ reg ∨ x = t.Target := by
  split_ifs with h
  · constructor
    · exact Or.inl
    · rintro (h1 | h1)
      · exact h1
      · rw [h1]; exact h
  · simp [or_comm]

/-- Membership in the errors of the target loop: an error is reported exactly when the iteration
of some position `k` appends it, where the target of that position counts as registered when its
string was in the registry at the start of the loop or belongs to an earlier position. -/
theorem mem_validateTargets (ts : List Target) :
    ∀ (i : Nat) (reg : List String) (e : ValidationError),
      e ∈ (validateTargets ts i [] reg).1 ↔
        ∃ k t, ts[k]? = some t ∧
          e ∈ iterationErrors (i + k) t
            (decide (t.Target ∈ reg ∨ t.Target ∈ (ts.take k).map (fun u => u.Target))) := by
  induction ts with
  | nil => intro i reg e; simp [validateTargets]
  | cons t rest ih =>
    intro i reg e
    rw [validateTargets_cons, validateTargets_errs_append]
    simp only [List.nil_append, List.mem_append, ih]
    constructor
    · rintro (h | ⟨k, u, hk, hu⟩)
      · exact ⟨0, t, by simp, by simpa using h⟩
      · refine ⟨k + 1, u, by simpa using hk, ?_⟩
        have hd : decide (u.Target ∈ (if t.Target ∈ reg then reg else t.Target :: reg) ∨
            u.Target ∈ (rest.take k).map (fun u => u.Target)) =
            decide (u.Target ∈ reg ∨
              u.Target ∈ ((t :: rest).take (k + 1)).map (fun u => u.Target)) := by
          rw [decide_eq_decide, mem_registry_step]
          simp only [List.take_succ_cons, List.map_cons, List.mem_cons]
          tauto
        rw [← hd, show i + (k + 1) = i + 1 + k by omega]
        exact hu
    · rintro ⟨k, u, hk, hu⟩
      cases k with
      | zero =>
        simp only [List.getElem?_cons_zero, Option.some.injEq] at hk
        subst hk
        left
        simpa using hu
      | succ k =>
        right
        refine ⟨k, u, by simpa using hk, ?_⟩
        have hd : decide (u.Target ∈ (if t.Target ∈ reg then reg else t.Target :: reg) ∨
            u.Target ∈ (rest.take k).map (fun u => u.Target)) =
            decide (u.Target ∈ reg ∨
              u.Target ∈ ((t :: rest).take (k + 1)).map (fun u => u.Target)) := by
          rw [decide_eq_decide, mem_registry_step]
          simp only [List.take_succ_cons, List.map_cons, List.mem_cons]
          tauto
        rw [hd, show i + 1 + k = i + (k + 1) by omega]
        exact hu

theorem position_of_mem_iterationErrors {i : Nat} {target : Target} {registered : Bool}
    {e : ValidationError} (h : e ∈ iterationErrors i target registered) :
    e.position = some i := by
  rw [mem_iterationErrors] at h
  rcases h with ⟨n, -, -, rfl⟩ | ⟨d, -, -, rfl⟩ | ⟨-, rfl⟩ <;> simp [ValidationError.position]

theorem position_of_mem_fieldErrors {c : Config} {e : ValidationError}
    (h : e ∈ fieldErrors c) : e.position = none := by
  unfold fieldErrors at h
  simp only [List.mem_append] at h
  rcases h with ((((h | h) | h) | h) | h) | h <;> split_ifs at h <;>
    simp at h <;> (subst h; rfl)

theorem fieldErrors_nodup (c : Config) : (fieldErrors c).Nodup := by
  unfold fieldErrors
  split_ifs <;> simp

theorem validateTargets_nodup (ts : List Target) :
    ∀ (i : Nat) (reg : List String), (validateTargets ts i [] reg).1.Nodup := by
  induction ts with
  | nil => intro i reg; simp [validateTargets]
  | cons t rest ih =>
    intro i reg
    rw [validateTargets_cons, validateTargets_errs_append]
    simp only [List.nil_append]
    refine List.Nodup.append (iterationErrors_nodup _ _ _) (ih _ _) ?_
    intro e h1 h2
    have p1 := position_of_mem_iterationErrors h1
    rw [mem_validateTargets] at h2
    obtain ⟨k, u, -, hu⟩ := h2
    have p2 := position_of_mem_iterationErrors hu
    rw [p1] at p2
    simp only [Option.some.injEq] at p2
    omega

theorem mem_map_take_iff (ts : List Target) (k : Nat) (s : String) :
    s ∈ (ts.take k).map (fun u => u.Target) ↔
      ∃ j u, j < k ∧ ts[j]? = some u ∧ u.Target = s := by
  simp only [List.mem_map]
  constructor
  · rintro ⟨u, hu, rfl⟩
    obtain ⟨j, hj, hju⟩ := List.getElem_of_mem hu
    rw [List.length_take] at hj
    refine ⟨j, u, by omega, ?_, rfl⟩
    rw [List.getElem_take] at hju
    rw [← hju]
    exact List.getElem?_eq_getElem _
  · rintro ⟨j, u, hj, hju, rfl⟩
    refine ⟨u, ?_, rfl⟩
    have hlen : j < ts.length := by
      by_contra hcon
      rw [List.getElem?_eq_none (by omega)] at hju
      exact Option.noConfusion hju
    rw [List.getElem?_eq_getElem hlen, Option.some.injEq] at hju
    rw [← hju]
    have hlt : j < (ts.take k).length := by rw [List.length_take]; omega
    have hget : (ts.take k)[j] = ts[j] := List.getElem_take ts
    rw [← hget]
    exact List.getElem_mem hlt

theorem mem_Validate_errs (c : Config) (reg : List String) (e : ValidationError) :
    e ∈ (Validate c reg).errs ↔ ruleViolated c reg e := by
  rw [Validate_errs, List.mem_append]
  have hsp := containsSpaces_iff c.Tag
  have hpos : e ∈ fieldErrors c → e.position = none := position_of_mem_fieldErrors
  have hpos2 : e ∈ (validateTargets c.Targets 0 [] reg).1 → ∃ k, e.position = some k := by
    intro h
    rw [mem_validateTargets] at h
    obtain ⟨k, u, -, hu⟩ := h
    exact ⟨_, position_of_mem_iterationErrors hu⟩
  cases e with
  | collectionInterval | timeout | defaultPingCount | defaultPingTimeout | targetsEmpty =>
    constructor
    · rintro (h | h)
      · unfold fieldErrors at h
        simp only [List.mem_append] at h
        rcases h with ((((h | h) | h) | h) | h) | h <;> split_ifs at h <;> simp at h <;>
          simpa [ruleViolated]
      · obtain ⟨k, hk⟩ := hpos2 h
        simp [ValidationError.position] at hk
    · intro h
      left
      simp only [ruleViolated] at h
      simp [fieldErrors, h]
  | tagSpaces tag =>
    constructor
    · rintro (h | h)
      · unfold fieldErrors at h
        simp only [List.mem_append] at h
        rcases h with ((((h | h) | h) | h) | h) | h <;> split_ifs at h with hc <;> simp at h
        exact ⟨h, hsp.mp hc⟩
      · obtain ⟨k, hk⟩ := hpos2 h
        simp [ValidationError.position] at hk
    · rintro ⟨h1, h2⟩
      left
      simp [fieldErrors, h1, hsp.mpr h2]
  | invalidPingCount i v =>
    constructor
    · rintro (h | h)
      · have := hpos h
        simp [ValidationError.position] at this
      · rw [mem_validateTargets] at h
        obtain ⟨k, t, hk, ht⟩ := h
        rw [mem_iterationErrors, zero_add] at ht
        rcases ht with ⟨n, hn, hlt, heq⟩ | ⟨d, hd, hdl, heq⟩ | ⟨-, heq⟩ <;> cases heq
        exact ⟨t, hk, by assumption, by assumption⟩
    · rintro ⟨t, hk, hn, hlt⟩
      right
      rw [mem_validateTargets]
      refine ⟨i, t, hk, ?_⟩
      rw [mem_iterationErrors]
      left
      exact ⟨v, hn, hlt, by rw [zero_add]⟩
  | invalidPingTimeout i v =>
    constructor
    · rintro (h | h)
      · have := hpos h
        simp [ValidationError.position] at this
      · rw [mem_validateTargets] at h
        obtain ⟨k, t, hk, ht⟩ := h
        rw [mem_iterationErrors, zero_add] at ht
        rcases ht with ⟨n, hn, hlt, heq⟩ | ⟨d, hd, hdl, heq⟩ | ⟨-, heq⟩ <;> cases heq
        exact ⟨t, hk, by assumption, by assumption⟩
    · rintro ⟨t, hk, hn, hlt⟩
      right
      rw [mem_validateTargets]
      refine ⟨i, t, hk, ?_⟩
      rw [mem_iterationErrors]
      right; left
      exact ⟨v, hn, hlt, by simp⟩
  | duplicated n s =>
    constructor
    · rintro (h | h)
      · have := hpos h
        simp [ValidationError.position] at this
      · rw [mem_validateTargets] at h
        obtain ⟨k, t, hk, ht⟩ := h
        rw [mem_iterationErrors, zero_add] at ht
        rcases ht with ⟨n, hn, hlt, heq⟩ | ⟨d, hd, hdl, heq⟩ | ⟨hreg, heq⟩ <;> cases heq
        refine ⟨k, t, rfl, hk, rfl, ?_⟩
        rw [decide_eq_true_eq, mem_map_take_iff] at hreg
        exact hreg
    · rintro ⟨i, t, rfl, hk, rfl, hreg⟩
      right
      rw [mem_validateTargets]
      refine ⟨i, t, hk, ?_⟩
      rw [mem_iterationErrors]
      right; right
      rw [← mem_map_take_iff] at hreg
      exact ⟨decide_eq_true hreg, by rw [zero_add]⟩

theorem Validate_errs_nodup (c : Config) (reg : List String) : (Validate c reg).errs.Nodup := by
  rw [Validate_errs]
  refine List.Nodup.append (fieldErrors_nodup c) (validateTargets_nodup _ _ _) ?_
  intro e h1 h2
  have p1 := position_of_mem_fieldErrors h1
  rw [mem_validateTargets] at h2
  obtain ⟨k, u, -, hu⟩ := h2
  have p2 := position_of_mem_iterationErrors hu
  rw [p1] at p2
  exact Option.noConfusion p2

theorem mem_validateTargets_registry (ts : List Target) :
    ∀ (i : Nat) (errs : List ValidationError) (reg : List String) (x : String),
      x ∈ (validateTargets ts i errs reg).2 ↔ x ∈ reg ∨ x ∈ ts.map (fun t => t.Target) := by
  induction ts with
  | nil => intro i errs reg x; simp [validateTargets]
  | cons t rest ih =>
    intro i errs reg x
    rw [validateTargets_cons, ih, mem_registry_step]
    simp only [List.map_cons, List.mem_cons]
    tauto

theorem mem_Validate_globalTargets (c : Config) (reg : List String) (x : String) :
    x ∈ (Validate c reg).globalTargets ↔ x ∈ reg ∨ x ∈ c.Targets.map (fun t => t.Target) := by
  rw [Validate_globalTargets, mem_validateTargets_registry]

theorem Validate_config (c : Config) (reg : List String) :
    (Validate c reg).config = { c with Tag := if c.Tag = "" then TagNotSet else c.Tag } := by
  simp only [Validate]
  by_cases htag : c.Tag = "" <;> simp [htag]

theorem Validate_config_Targets (c : Config) (reg : List String) :
    (Validate c reg).config.Targets = c.Targets := by
  rw [Validate_config]

/-- When every target is already registered and every override is within bounds, the loop
reports one duplicate error per target, in order, and nothing else. -/
theorem validateTargets_all_registered (ts : List Target) :
    ∀ (i : Nat) (reg : List String),
      (∀ t ∈ ts, t.Target ∈ reg) →
      (∀ t ∈ ts, ∀ n, t.PingCount = some n → 1 ≤ n) →
      (∀ t ∈ ts, ∀ d, t.PingTimeout = some d → 1 * Second < d) →
      (validateTargets ts i [] reg).1 =
        (ts.enumFrom i).map (fun p => ValidationError.duplicated (p.1 + 1) p.2.Target) := by
  induction ts with
  | nil => intro i reg _ _ _; simp [validateTargets]
  | cons t rest ih =>
    intro i reg hreg hc ht
    have h0 : t.Target ∈ reg := hreg t (List.mem_cons_self _ _)
    rw [validateTargets_cons, validateTargets_errs_append]
    simp only [h0, if_true, List.nil_append, List.enumFrom_cons, List.map_cons]
    rw [ih (i + 1) reg (fun u hu => hreg u (List.mem_cons_of_mem _ hu))
      (fun u hu => hc u (List.mem_cons_of_mem _ hu))
      (fun u hu => ht u (List.mem_cons_of_mem _ hu))]
    have hc0 := hc t (List.mem_cons_self _ _)
    have ht0 := ht t (List.mem_cons_self _ _)
    have : iterationErrors i t (decide True) = [ValidationError.duplicated (i + 1) t.Target] := by
      unfold iterationErrors
      rcases hpc : t.PingCount with _ | n <;> rcases hpt : t.PingTimeout with _ | d <;>
        simp only [decide_True, if_true, List.nil_append]
      · have h2 := ht0 d hpt
        rw [if_neg (by omega)]; rfl
      · have h1 := hc0 n hpc
        rw [if_neg (by omega)]; rfl
      · have h2 := ht0 d hpt
        have h1 := hc0 n hpc
        rw [if_neg (by omega), if_neg (by omega)]; rfl
    rw [this]
    rfl

/-! ## Scraping: auxiliary facts -/

theorem putStr_three (a b c : String) :
    PutStr (PutStr (PutStr [] AttrPeerIp a) AttrPeerName b) AttrTag c =
      [("net.peer.ip", a), ("net.peer.name", b), ("tag", c)] := by
  simp [PutStr, AttrPeerIp, AttrPeerName, AttrTag]

theorem foldl_appendPacketDataPoint (pingRes : pingResult) (pkts : List packet) :
    ∀ acc : List NumberDataPoint,
      pkts.foldl
        (fun acc pkt => appendPacketDataPoint acc ((pkt.Packet.Rtt : ℚ) / 1000000) pkt pingRes)
        acc = acc ++ pkts.map (packetPoint pingRes.tag pingRes) := by
  induction pkts with
  | nil => intro acc; simp
  | cons pkt rest ih =>
    intro acc
    rw [List.foldl_cons, ih]
    simp [appendPacketDataPoint, packetPoint, putStr_three]

theorem appendResult_rtt (tag : String) (dps : DataPoints) (res : pingResult) :
    (appendResult tag dps res).rttMetricDataPoints =
      dps.rttMetricDataPoints ++ res.Packets.map (packetPoint tag res) := by
  simp only [appendResult]
  rw [foldl_appendPacketDataPoint]
  rfl

theorem foldl_appendResult_rtt (tag : String) (rs : List pingResult) :
    ∀ dps : DataPoints,
      (rs.foldl (appendResult tag) dps).rttMetricDataPoints =
        dps.rttMetricDataPoints ++ rs.flatMap (fun res => res.Packets.map (packetPoint tag res)) := by
  induction rs with
  | nil => intro dps; simp
  | cons res rest ih =>
    intro dps
    rw [List.foldl_cons, ih, appendResult_rtt]
    simp

theorem foldl_appendResult_lengths (tag : String) (rs : List pingResult) :
    ∀ dps : DataPoints,
      (rs.foldl (appendResult tag) dps).minRttMetricDataPoints.length =
        dps.minRttMetricDataPoints.length + rs.length ∧
      (rs.foldl (appendResult tag) dps).maxRttMetricDataPoints.length =
        dps.maxRttMetricDataPoints.length + rs.length ∧
      (rs.foldl (appendResult tag) dps).avgRttMetricDataPoints.length =
        dps.avgRttMetricDataPoints.length + rs.length ∧
      (rs.foldl (appendResult tag) dps).stddevRttMetricDataPoints.length =
        dps.stddevRttMetricDataPoints.length + rs.length ∧
      (rs.foldl (appendResult tag) dps).lossRatioMetricDataPoints.length =
        dps.lossRatioMetricDataPoints.length + rs.length := by
  induction rs with
  | nil => intro dps; simp
  | cons res rest ih =>
    intro dps
    rw [List.foldl_cons]
    obtain ⟨h1, h2, h3, h4, h5⟩ := ih (appendResult tag dps res)
    rw [h1, h2, h3, h4, h5]
    simp only [appendResult, appendStatsDataPoint, List.length_append, List.length_cons,
      List.length_nil]
    omega

theorem successes_filter (outs : List (Except GoError pingResult)) :
    successes (outs.filter (fun r => !skipped r)) = successes outs := by
  induction outs with
  | nil => rfl
  | cons r rest ih =>
    cases r with
    | ok res =>
      have hk : (!skipped (Except.ok res)) = true := rfl
      simp only [List.filter_cons, hk, if_true, successes, ih]
    | error err =>
      by_cases h : asDNSError err = true
      · have hk : (!skipped (Except.error err)) = false := by simp [skipped, h]
        simp only [List.filter_cons, hk, Bool.false_eq_true, if_false, successes, ih]
      · have hk : (!skipped (Except.error err)) = true := by simp [skipped, h]
        simp only [List.filter_cons, hk, if_true, successes, ih]

theorem successes_eq_nil_of_skipped (outs : List (Except GoError pingResult))
    (h : ∀ r ∈ outs, skipped r = true) : successes outs = [] := by
  induction outs with
  | nil => rfl
  | cons r rest ih =>
    cases r with
    | ok res => have := h (.ok res) (List.mem_cons_self _ _); simp [skipped] at this
    | error err => simp only [successes]; exact ih (fun r hr => h r (List.mem_cons_of_mem _ hr))

theorem probeAll_length {W : Type} (s : pingScraper) (eng : Engine W) (ts : List Target) :
    ∀ w : W, (probeAll s eng ts w).1.length = ts.length := by
  induction ts with
  | nil => intro w; rfl
  | cons t rest ih => intro w; simp [probeAll, ih]

/-- A scrape none of whose probes is fatal adds the points of the successful probes, in order,
and leaves the world as the last probe left it. -/
theorem scrapeTargets_of_no_fatal {W : Type} (s : pingScraper) (eng : Engine W)
    (ts : List Target) :
    ∀ (dps : DataPoints) (w : W),
      (∀ r ∈ (probeAll s eng ts w).1, fatal r = false) →
      scrapeTargets s eng ts dps w =
        (.ok ((successes (probeAll s eng ts w).1).foldl (appendResult s.tag) dps),
          (probeAll s eng ts w).2) := by
  induction ts with
  | nil => intro dps w _; rfl
  | cons t rest ih =>
    intro dps w h
    simp only [probeAll, List.mem_cons, forall_eq_or_imp] at h
    obtain ⟨h0, hrest⟩ := h
    rw [scrapeTargets]
    rcases hp : ping s eng t w with ⟨r, w1⟩
    rw [hp] at h0 hrest
    cases r with
    | error err =>
      have hdns : asDNSError err = true := by simpa [fatal] using h0
      simp only [hdns, if_true, probeAll, hp, successes]
      exact ih dps w1 hrest
    | ok res =>
      simp only [probeAll, hp, successes, List.foldl_cons]
      exact ih _ w1 hrest

/-- A scrape stops at the first fatal probe: it returns the wrapped error of that probe and the
world as that probe left it, whatever targets follow. -/
theorem scrapeTargets_of_fatal {W : Type} (s : pingScraper) (eng : Engine W)
    (pre : List Target) (t : Target) (post : List Target) (err : GoError) (w2 : W) :
    ∀ (dps : DataPoints) (w : W),
      (∀ r ∈ (probeAll s eng pre w).1, fatal r = false) →
      ping s eng t (probeAll s eng pre w).2 = (.error err, w2) →
      asDNSError err = false →
      scrapeTargets s eng (pre ++ t :: post) dps w =
        (.error (GoError.wrap (WrapContext.executePinger t.Target) err), w2) := by
  induction pre with
  | nil =>
    intro dps w _ hp hdns
    simp only [probeAll] at hp
    simp [scrapeTargets, hp, hdns]
  | cons u rest ih =>
    intro dps w h hp hdns
    simp only [probeAll, List.mem_cons, forall_eq_or_imp] at h hp
    obtain ⟨h0, hrest⟩ := h
    rw [List.cons_append, scrapeTargets]
    rcases hq : ping s eng u w with ⟨r, w1⟩
    rw [hq] at h0 hrest hp
    cases r with
    | error e =>
      have hd : asDNSError e = true := by simpa [fatal] using h0
      simp only [hd, if_true]
      exact ih dps w1 hrest hp hdns
    | ok res => exact ih _ w1 hrest hp hdns

theorem probeAll_append_singleton {W : Type} (s : pingScraper) (eng : Engine W)
    (pre : List Target) (t : Target) :
    ∀ w : W, (probeAll s eng (pre ++ [t]) w).2 = (ping s eng t (probeAll s eng pre w).2).2 := by
  induction pre with
  | nil => intro w; rfl
  | cons u rest ih => intro w; simp only [List.cons_append, probeAll]; exact ih _

theorem appendResult_stats (tag : String) (dps : DataPoints) (res : pingResult) :
    (appendResult tag dps res).minRttMetricDataPoints =
      dps.minRttMetricDataPoints ++ [statsPoint tag res ((res.Stats.MinRtt : ℚ) / 1000000)] ∧
    (appendResult tag dps res).maxRttMetricDataPoints =
      dps.maxRttMetricDataPoints ++ [statsPoint tag res ((res.Stats.MaxRtt : ℚ) / 1000000)] ∧
    (appendResult tag dps res).avgRttMetricDataPoints =
      dps.avgRttMetricDataPoints ++ [statsPoint tag res ((res.Stats.AvgRtt : ℚ) / 1000000)] ∧
    (appendResult tag dps res).stddevRttMetricDataPoints =
      dps.stddevRttMetricDataPoints ++
        [statsPoint tag res ((res.Stats.StdDevRtt : ℚ) / 1000000)] ∧
    (appendResult tag dps res).lossRatioMetricDataPoints =
      dps.lossRatioMetricDataPoints ++ [statsPoint tag res (res.Stats.PacketLoss / 100)] := by
  simp [appendResult, appendStatsDataPoint, statsPoint, putStr_three]

theorem foldl_appendResult_stats (tag : String) (rs : List pingResult) :
    ∀ dps : DataPoints,
      (rs.foldl (appendResult tag) dps).minRttMetricDataPoints =
        dps.minRttMetricDataPoints ++
          rs.map (fun res => statsPoint tag res ((res.Stats.MinRtt : ℚ) / 1000000)) ∧
      (rs.foldl (appendResult tag) dps).maxRttMetricDataPoints =
        dps.maxRttMetricDataPoints ++
          rs.map (fun res => statsPoint tag res ((res.Stats.MaxRtt : ℚ) / 1000000)) ∧
      (rs.foldl (appendResult tag) dps).avgRttMetricDataPoints =
        dps.avgRttMetricDataPoints ++
          rs.map (fun res => statsPoint tag res ((res.Stats.AvgRtt : ℚ) / 1000000)) ∧
      (rs.foldl (appendResult tag) dps).stddevRttMetricDataPoints =
        dps.stddevRttMetricDataPoints ++
          rs.map (fun res => statsPoint tag res ((res.Stats.StdDevRtt : ℚ) / 1000000)) ∧
      (rs.foldl (appendResult tag) dps).lossRatioMetricDataPoints =
        dps.lossRatioMetricDataPoints ++
          rs.map (fun res => statsPoint tag res (res.Stats.PacketLoss / 100)) := by
  induction rs with
  | nil => intro dps; simp
  | cons res rest ih =>
    intro dps
    rw [List.foldl_cons]
    obtain ⟨h1, h2, h3, h4, h5⟩ := ih (appendResult tag dps res)
    obtain ⟨g1, g2, g3, g4, g5⟩ := appendResult_stats tag dps res
    rw [h1, h2, h3, h4, h5, g1, g2, g3, g4, g5]
    simp

theorem Scrape_of_no_fatal {W : Type} (s : pingScraper) (eng : Engine W) (w : W)
    (h : ∀ r ∈ (probeAll s eng s.targets w).1, fatal r = false) :
    (Scrape s eng w).1 =
      (batch ((successes (probeAll s eng s.targets w).1).foldl (appendResult s.tag)
        emptyDataPoints), none) := by
  simp only [Scrape]
  rw [scrapeTargets_of_no_fatal s eng s.targets emptyDataPoints w h]

theorem registry_suffix (ts : List Target) :
    ∀ (i : Nat) (errs : List ValidationError) (reg : List String),
      ∃ added : List String,
        (validateTargets ts i errs reg).2 = added ++ reg ∧
        ∀ x ∈ added, x ∈ ts.map (fun t => t.Target) ∧ x ∉ reg := by
  induction ts with
  | nil => intro i errs reg; exact ⟨[], rfl, by simp⟩
  | cons t rest ih =>
    intro i errs reg
    rw [validateTargets_cons]
    by_cases h : t.Target ∈ reg
    · simp only [h, if_true]
      obtain ⟨added, h1, h2⟩ := ih (i + 1) (errs ++ iterationErrors i t (decide True)) reg
      refine ⟨added, h1, fun x hx => ⟨?_, (h2 x hx).2⟩⟩
      exact List.mem_map.mpr
        (by
          obtain ⟨u, hu, hux⟩ := List.mem_map.mp (h2 x hx).1
          exact ⟨u, List.mem_cons_of_mem _ hu, hux⟩)
    · simp only [h, if_false]
      obtain ⟨added, h1, h2⟩ :=
        ih (i + 1) (errs ++ iterationErrors i t (decide False)) (t.Target :: reg)
      refine ⟨added ++ [t.Target], by rw [h1]; simp, ?_⟩
      intro x hx
      rcases List.mem_append.mp hx with hx | hx
      · have := h2 x hx
        refine ⟨?_, fun hreg => this.2 (List.mem_cons_of_mem _ hreg)⟩
        obtain ⟨u, hu, hux⟩ := List.mem_map.mp this.1
        exact List.mem_map.mpr ⟨u, List.mem_cons_of_mem _ hu, hux⟩
      · rw [List.mem_singleton] at hx
        subst hx
        exact ⟨List.mem_map.mpr ⟨t, List.mem_cons_self _ _, rfl⟩, h⟩

theorem mem_registryAfter (cs : List Config) :
    ∀ (reg : List String) (x : String),
      x ∈ registryAfter cs reg ↔
        x ∈ reg ∨ ∃ c ∈ cs, x ∈ c.Targets.map (fun t => t.Target) := by
  induction cs with
  | nil => intro reg x; simp [registryAfter]
  | cons c rest ih =>
    intro reg x
    rw [registryAfter, ih, mem_Validate_globalTargets]
    simp only [List.mem_cons, exists_eq_or_imp]
    tauto

/-! ## Validation: the claims -/

/-- C1: `Config.Validate` returns no error exactly when the collection interval is positive, the
timeout is non-negative, the default ping count is at least 3, the default ping timeout is at
least 5s, the target list is non-empty, the tag contains no space, every present ping-count
override is at least 1, every present ping-timeout override exceeds 1s, the target strings are
pairwise distinct and none of them is in the registry when the call starts. -/
theorem Validate_no_error_iff (c : Config) (globalTargets : List String) :
    (Validate c globalTargets).errs = [] ↔
      (0 < c.CollectionInterval ∧ 0 ≤ c.Timeout ∧ 3 ≤ c.DefaultPingCount ∧
        5 * Second ≤ c.DefaultPingTimeout ∧ c.Targets ≠ [] ∧ ' ' ∉ c.Tag.toList ∧
        (∀ t ∈ c.Targets, ∀ n, t.PingCount = some n → 1 ≤ n) ∧
        (∀ t ∈ c.Targets, ∀ d, t.PingTimeout = some d → 1 * Second < d) ∧
        (c.Targets.map (fun t => t.Target)).Nodup ∧
        ∀ t ∈ c.Targets, t.Target ∉ globalTargets) := by
  rw [Validate_errs, List.append_eq_nil, fieldErrors_eq_nil, validateTargets_errs_eq_nil]
  simp only [one_mul, true_and, and_assoc]

/-- C1, at `retryConfigFixed` with an empty registry: all conditions hold, so no error. -/
theorem Validate_no_error_iff_witness : (Validate retryConfigFixed []).errs = [] :=
  (Validate_no_error_iff retryConfigFixed []).mpr
    ⟨by decide, by decide, by decide, by decide, by decide, by decide,
      by simp [retryConfigFixed, retryConfig], by simp [retryConfigFixed, retryConfig],
      by decide, by decide⟩

/-- C2: `Config.Validate` reports every violated rule at once: the returned aggregate holds no
error twice, and an error is in it exactly when the rule it reports is violated (interval not
positive, tag with a space, negative timeout, default ping count below 3, default ping timeout
below 5s, no targets, and per target an override out of bounds or a duplicate string). In
particular interval 0, default ping count below 3, default ping timeout below 5s and no targets
yield those four errors together, in this order. -/
theorem Validate_reports_every_violated_rule (c : Config) (globalTargets : List String) :
    (Validate c globalTargets).errs.Nodup ∧
    (∀ e, e ∈ (Validate c globalTargets).errs ↔ ruleViolated c globalTargets e) ∧
    (c.CollectionInterval = 0 → c.DefaultPingCount < 3 → c.DefaultPingTimeout < 5 * Second →
      c.Targets = [] →
      List.Sublist
        [ValidationError.collectionInterval, ValidationError.defaultPingCount,
          ValidationError.defaultPingTimeout, ValidationError.targetsEmpty]
        (Validate c globalTargets).errs) := by
  refine ⟨Validate_errs_nodup c globalTargets, mem_Validate_errs c globalTargets, ?_⟩
  intro h1 h2 h3 h4
  rw [Validate_errs, h4]
  simp only [fieldErrors, h1, h2, h3, h4, le_refl, if_true, validateTargets, List.append_nil]
  split_ifs <;> simp

/-- C3: for the target at position `i`, `Config.Validate` reports the duplicate error quoting its
string exactly when that string is in the registry at the start of the call or occurs at an
earlier position of the list; and validating the configuration a second time, with the registry
the first call left, reports a duplicate for each of its targets. -/
theorem Validate_duplicate_iff (c : Config) (globalTargets : List String) :
    (∀ i t, c.Targets[i]? = some t →
      (ValidationError.duplicated (i + 1) t.Target ∈ (Validate c globalTargets).errs ↔
        (t.Target ∈ globalTargets ∨
          ∃ j u, j < i ∧ c.Targets[j]? = some u ∧ u.Target = t.Target))) ∧
    (∀ i t, c.Targets[i]? = some t →
      ValidationError.duplicated (i + 1) t.Target ∈
        (Validate (Validate c globalTargets).config (Validate c globalTargets).globalTargets).errs) := by
  constructor
  · intro i t hi
    rw [mem_Validate_errs]
    constructor
    · rintro ⟨k, u, hk, hu, htu, hreg⟩
      have hik : i = k := by omega
      subst hik
      exact hreg
    · intro hreg
      exact ⟨i, t, rfl, hi, rfl, hreg⟩
  · intro i t hi
    rw [mem_Validate_errs]
    refine ⟨i, t, rfl, ?_, rfl, Or.inl ?_⟩
    · rw [Validate_config_Targets]; exact hi
    · rw [mem_Validate_globalTargets]
      right
      have hlen : i < c.Targets.length := by
        by_contra hcon
        rw [List.getElem?_eq_none (by omega)] at hi
        exact Option.noConfusion hi
      rw [List.getElem?_eq_getElem hlen, Option.some.injEq] at hi
      exact List.mem_map.mpr ⟨t, by rw [← hi]; exact List.getElem_mem hlen, rfl⟩

/-- C4: after `Config.Validate` the configuration is the one before the call with the tag
replaced by `"NA"` if it was empty and left alone otherwise, whatever errors the call returns; so
no other field changes; and an originally empty tag produces no tag error. -/
theorem Validate_tag_sentinel (c : Config) (globalTargets : List String) :
    (Validate c globalTargets).config = { c with Tag := if c.Tag = "" then "NA" else c.Tag } ∧
    (c.Tag = "" → ∀ tag, ValidationError.tagSpaces tag ∉ (Validate c globalTargets).errs) := by
  refine ⟨Validate_config c globalTargets, ?_⟩
  intro h tag hmem
  rw [mem_Validate_errs] at hmem
  obtain ⟨-, hsp⟩ := hmem
  rw [h] at hsp
  simp at hsp

/-- C2, at the configuration of the invalid-no-targets test: the four errors are returned
together, and they are all that is returned. -/
theorem Validate_reports_every_violated_rule_witness :
    List.Sublist
      [ValidationError.collectionInterval, ValidationError.defaultPingCount,
        ValidationError.defaultPingTimeout, ValidationError.targetsEmpty]
      (Validate noTargetsConfig []).errs ∧
    (Validate noTargetsConfig []).errs =
      [ValidationError.collectionInterval, ValidationError.defaultPingCount,
        ValidationError.defaultPingTimeout, ValidationError.targetsEmpty] :=
  ⟨(Validate_reports_every_violated_rule noTargetsConfig []).2.2 (by decide) (by decide)
    (by decide) (by decide), by decide⟩

/-- C3, at a configuration that repeats `localhost1`: the second occurrence (position 2) is
reported, the first is not, and a second validation reports the first one too. -/
theorem Validate_duplicate_iff_witness :
    ValidationError.duplicated 3 "localhost1" ∈ (Validate duplicateConfig []).errs ∧
    ValidationError.duplicated 1 "localhost1" ∉ (Validate duplicateConfig []).errs ∧
    ValidationError.duplicated 1 "localhost1" ∈
      (Validate (Validate duplicateConfig []).config (Validate duplicateConfig []).globalTargets).errs :=
  ⟨((Validate_duplicate_iff duplicateConfig []).1 2
      { Target := "localhost1", PingCount := none, PingTimeout := some (2 * Second) } (by decide)).mpr
      (Or.inr ⟨0, { Target := "localhost1", PingCount := none, PingTimeout := none },
        by decide, by decide, by decide⟩),
    by decide,
    (Validate_duplicate_iff duplicateConfig []).2 0
      { Target := "localhost1", PingCount := none, PingTimeout := none } (by decide)⟩

/-- C4, at a configuration with an empty tag that fails validation: the tag becomes `"NA"`, the
other fields stay, and no tag error is among the four errors. -/
theorem Validate_tag_sentinel_witness :
    (Validate noTargetsConfig []).config = { noTargetsConfig with Tag := "NA" } ∧
    ValidationError.tagSpaces "" ∉ (Validate noTargetsConfig []).errs :=
  ⟨(Validate_tag_sentinel noTargetsConfig []).1,
    (Validate_tag_sentinel noTargetsConfig []).2 (by decide) ""⟩

/-- C5 as stated fails: `retryConfig` has one fresh target and fails validation only for its
default ping count; the corrected configuration would pass against the registry as it was, but
validated after the failed call it is rejected, because the failed call registered the target. -/
theorem Validate_retry_counterexample :
    retryConfig.Targets ≠ [] ∧
    (retryConfig.Targets.map (fun t => t.Target)).Nodup ∧
    (∀ t ∈ retryConfig.Targets, t.Target ∉ ([] : List String)) ∧
    (Validate retryConfig []).errs = [ValidationError.defaultPingCount] ∧
    (Validate retryConfigFixed []).errs = [] ∧
    (Validate retryConfigFixed (Validate retryConfig []).globalTargets).errs =
      [ValidationError.duplicated 1 "a.test"] ∧
    (Validate retryConfigFixed (Validate retryConfig []).globalTargets).errs ≠ [] := by
  decide

/-- C5, amended: let `c` have a non-empty list of pairwise distinct, not yet registered targets
with overrides in bounds, and let `c1` be `c` with its other fields corrected. Validating `c1`
against the registry as it was before `c` was validated returns no error; validating it against
the registry the call on `c` left returns one duplicate error per target, in order, and nothing
else. -/
theorem Validate_retry_after_failure (c c1 : Config) (globalTargets : List String)
    (hne : c.Targets ≠ [])
    (hdistinct : (c.Targets.map (fun t => t.Target)).Nodup)
    (hfresh : ∀ t ∈ c.Targets, t.Target ∉ globalTargets)
    (hcount : ∀ t ∈ c.Targets, ∀ n, t.PingCount = some n → 1 ≤ n)
    (htimeout : ∀ t ∈ c.Targets, ∀ d, t.PingTimeout = some d → 1 * Second < d)
    (hsame : c1.Targets = c.Targets)
    (hfixed : 0 < c1.CollectionInterval ∧ 0 ≤ c1.Timeout ∧ 3 ≤ c1.DefaultPingCount ∧
      5 * Second ≤ c1.DefaultPingTimeout ∧ ' ' ∉ c1.Tag.toList) :
    (Validate c1 globalTargets).errs = [] ∧
    (Validate c1 (Validate c globalTargets).globalTargets).errs =
      c.Targets.enum.map (fun p => ValidationError.duplicated (p.1 + 1) p.2.Target) := by
  obtain ⟨f1, f2, f3, f4, f5⟩ := hfixed
  have hfield : fieldErrors c1 = [] := by
    rw [fieldErrors_eq_nil, hsame]
    exact ⟨f1, f2, f3, f4, hne, f5⟩
  constructor
  · rw [Validate_errs, hfield, hsame, List.nil_append, validateTargets_errs_eq_nil]
    simp only [one_mul] at htimeout
    exact ⟨rfl, hcount, htimeout, hdistinct, hfresh⟩
  · rw [Validate_errs, hfield, hsame, List.nil_append]
    refine validateTargets_all_registered c.Targets 0 _ ?_ hcount htimeout
    intro t ht
    rw [mem_Validate_globalTargets]
    exact Or.inr (List.mem_map.mpr ⟨t, ht, rfl⟩)

/-- C5 amended, at `retryConfig` and its correction. -/
theorem Validate_retry_after_failure_witness :
    (Validate retryConfigFixed []).errs = [] ∧
    (Validate retryConfigFixed (Validate retryConfig []).globalTargets).errs =
      retryConfig.Targets.enum.map (fun p => ValidationError.duplicated (p.1 + 1) p.2.Target) :=
  Validate_retry_after_failure retryConfig retryConfigFixed [] (by decide) (by decide)
    (by decide) (by decide) (by decide) (by decide) (by decide)

/-! ## Scraping: the claims -/

/-- C6: when the engine creates the pinger, `ping` runs it with the count set to the target's
ping-count override if that is present (zero included) and to the default ping count otherwise,
and with the timeout set to the target's ping-timeout override if present and to the default
ping timeout otherwise; the outcome of `ping` is the outcome of that run. -/
theorem ping_resolves_overrides {W : Type} (s : pingScraper) (eng : Engine W) (target : Target)
    (w w1 : W) (pinger : Pinger) (h : eng.NewPinger target.Target w = (.ok pinger, w1)) :
    ping s eng target w =
      match eng.Run
        { pinger with
          Count := (match target.PingCount with
            | some n => n
            | none => s.defaultPingCount)
          Timeout := (match target.PingTimeout with
            | some d => d
            | none => s.defaultPingTimeout) } w1 with
      | (.error err, w2) => (.error (GoError.wrap WrapContext.runPinger err), w2)
      | (.ok out, w2) =>
        (.ok { Packets := out.received, Stats := out.statistics, StatsTimestamp := out.finished,
               tag := "" }, w2) := by
  simp only [ping, h]
  rcases target.PingCount with _ | n <;> rcases target.PingTimeout with _ | d <;> rfl

/-- C6, at a target whose ping-count override is zero and that has no ping-timeout override,
with defaults 4 and 5s: the sample engine records a run with count 0 and timeout 5s. -/
theorem ping_resolves_overrides_witness :
    (ping (sampleScraper []) sampleEngine
        { Target := "a.test", PingCount := some 0, PingTimeout := none } []).2 =
      [EngineCall.newPinger "a.test",
        EngineCall.run { addr := "a.test", Count := 0, Timeout := 5 * Second }] :=
  (congrArg Prod.snd
    (ping_resolves_overrides (sampleScraper []) sampleEngine
      { Target := "a.test", PingCount := some 0, PingTimeout := none } []
      [EngineCall.newPinger "a.test"] { addr := "a.test", Count := -1, Timeout := 0 } rfl)).trans
    rfl

/-- C7: when every probe of a scrape succeeds, `Scrape` returns no error and a batch of one
resource and one scope with exactly the six metrics `ping.rtt`, `ping.rtt.min`, `ping.rtt.max`,
`ping.rtt.avg`, `ping.rtt.stddev`, `ping.loss.ratio`, in this order; `ping.rtt` has as many
points as packets were received over all targets, and each of the other five has one point per
target, whether or not the target received a packet. -/
theorem Scrape_all_succeed {W : Type} (s : pingScraper) (eng : Engine W) (w : W)
    (h : ∀ r ∈ (probeAll s eng s.targets w).1, succeeded r = true) :
    ∃ dps : DataPoints,
      (Scrape s eng w).1 =
        ({ resourceMetrics := [{ scopeMetrics := [{ metrics :=
            [{ name := "ping.rtt", unit := "ms", dataPoints := dps.rttMetricDataPoints },
             { name := "ping.rtt.min", unit := "ms", dataPoints := dps.minRttMetricDataPoints },
             { name := "ping.rtt.max", unit := "ms", dataPoints := dps.maxRttMetricDataPoints },
             { name := "ping.rtt.avg", unit := "ms", dataPoints := dps.avgRttMetricDataPoints },
             { name := "ping.rtt.stddev", unit := "ms",
               dataPoints := dps.stddevRttMetricDataPoints },
             { name := "ping.loss.ratio", unit := "",
               dataPoints := dps.lossRatioMetricDataPoints }] }] }] }, none) ∧
      (successes (probeAll s eng s.targets w).1).length = s.targets.length ∧
      dps.rttMetricDataPoints.length =
        ((successes (probeAll s eng s.targets w).1).map (fun res => res.Packets.length)).sum ∧
      dps.minRttMetricDataPoints.length = s.targets.length ∧
      dps.maxRttMetricDataPoints.length = s.targets.length ∧
      dps.avgRttMetricDataPoints.length = s.targets.length ∧
      dps.stddevRttMetricDataPoints.length = s.targets.length ∧
      dps.lossRatioMetricDataPoints.length = s.targets.length := by
  have hnf : ∀ r ∈ (probeAll s eng s.targets w).1, fatal r = false := by
    intro r hr
    have := h r hr
    cases r <;> simp_all [succeeded, fatal]
  have hlen : (successes (probeAll s eng s.targets w).1).length = s.targets.length := by
    rw [← probeAll_length s eng s.targets w]
    generalize (probeAll s eng s.targets w).1 = outs at h
    induction outs with
    | nil => rfl
    | cons r rest ih =>
      cases r with
      | error err => have := h _ (List.mem_cons_self _ _); simp [succeeded] at this
      | ok res =>
        simp only [successes, List.length_cons]
        rw [ih (fun r hr => h r (List.mem_cons_of_mem _ hr))]
  refine ⟨(successes (probeAll s eng s.targets w).1).foldl (appendResult s.tag) emptyDataPoints,
    ?_, hlen, ?_, ?_⟩
  · simp only [Scrape]
    rw [scrapeTargets_of_no_fatal s eng s.targets emptyDataPoints w hnf]
    rfl
  · rw [foldl_appendResult_rtt]
    simp only [emptyDataPoints, List.nil_append, List.length_flatMap]
    congr 1
    apply List.map_congr_left
    intro res _
    simp
  · obtain ⟨h1, h2, h3, h4, h5⟩ :=
      foldl_appendResult_lengths s.tag (successes (probeAll s eng s.targets w).1) emptyDataPoints
    rw [h1, h2, h3, h4, h5, hlen]
    simp [emptyDataPoints]

/-- C7, at two targets of the sample engine, one answering two packets and one answering none:
two `ping.rtt` points and two points in each aggregate stream, with no error. -/
theorem Scrape_all_succeed_witness :
    (∀ r ∈ (probeAll (sampleScraper ["a.test", "silent.test"]) sampleEngine
        (sampleScraper ["a.test", "silent.test"]).targets []).1, succeeded r = true) ∧
    ∃ dps : DataPoints,
      (Scrape (sampleScraper ["a.test", "silent.test"]) sampleEngine []).1 = (batch dps, none) ∧
      (successes (probeAll (sampleScraper ["a.test", "silent.test"]) sampleEngine
        (sampleScraper ["a.test", "silent.test"]).targets []).1).length = 2 ∧
      dps.rttMetricDataPoints.length = 2 + 0 ∧
      dps.minRttMetricDataPoints.length = 2 ∧
      dps.maxRttMetricDataPoints.length = 2 ∧
      dps.avgRttMetricDataPoints.length = 2 ∧
      dps.stddevRttMetricDataPoints.length = 2 ∧
      dps.lossRatioMetricDataPoints.length = 2 :=
  ⟨by decide,
    Scrape_all_succeed (sampleScraper ["a.test", "silent.test"]) sampleEngine [] (by decide)⟩

/-- C8: let every probe of a scrape either succeed or fail with an error whose chain holds a DNS
error. Then `Scrape` returns no error, and its batch is the batch of a scrape over the same list
without the DNS-failing targets in which the remaining probes turn out the same. When every
target fails DNS resolution the batch is the six metrics, each without data points. -/
theorem Scrape_skips_dns_failures {W W1 : Type} (s : pingScraper) (eng : Engine W) (w : W)
    (eng1 : Engine W1) (w1 : W1)
    (h : ∀ r ∈ (probeAll s eng s.targets w).1, succeeded r = true ∨ skipped r = true)
    (hsame :
      (probeAll { s with targets := keptTargets s.targets (probeAll s eng s.targets w).1 } eng1
        (keptTargets s.targets (probeAll s eng s.targets w).1) w1).1 =
        (probeAll s eng s.targets w).1.filter (fun r => !skipped r)) :
    (Scrape s eng w).1.2 = none ∧
    (Scrape s eng w).1 =
      (Scrape { s with targets := keptTargets s.targets (probeAll s eng s.targets w).1 }
        eng1 w1).1 ∧
    ((∀ r ∈ (probeAll s eng s.targets w).1, skipped r = true) →
      (Scrape s eng w).1 = (batch emptyDataPoints, none) ∧
      (Scrape s eng w).1.1.dataPointCount = 0) := by
  have hnf : ∀ r ∈ (probeAll s eng s.targets w).1, fatal r = false := by
    intro r hr
    rcases h r hr with h1 | h1 <;> cases r <;> simp_all [succeeded, skipped, fatal]
  have hS : (Scrape s eng w).1 =
      (batch ((successes (probeAll s eng s.targets w).1).foldl (appendResult s.tag)
        emptyDataPoints), none) := by
    simp only [Scrape]
    rw [scrapeTargets_of_no_fatal s eng s.targets emptyDataPoints w hnf]
  refine ⟨by rw [hS], ?_, ?_⟩
  · have hnf1 : ∀ r ∈ (probeAll
        { s with targets := keptTargets s.targets (probeAll s eng s.targets w).1 } eng1
        (keptTargets s.targets (probeAll s eng s.targets w).1) w1).1, fatal r = false := by
      rw [hsame]
      intro r hr
      exact hnf r (List.mem_of_mem_filter hr)
    rw [hS]
    simp only [Scrape]
    rw [scrapeTargets_of_no_fatal _ eng1 _ emptyDataPoints w1 hnf1, hsame, successes_filter]
  · intro hall
    rw [hS, successes_eq_nil_of_skipped _ hall]
    exact ⟨rfl, rfl⟩

/-- C8, at the sample engine with the unresolvable name between two reachable targets: the batch
is that of the scrape over the two reachable targets; and a scrape over the unresolvable name
alone (the DNS-error test) returns the six empty metrics and no error. -/
theorem Scrape_skips_dns_failures_witness :
    (Scrape (sampleScraper ["a.test", "invalid.target.com", "silent.test"]) sampleEngine []).1 =
      (Scrape (sampleScraper ["a.test", "silent.test"]) sampleEngine []).1 ∧
    (Scrape (sampleScraper ["invalid.target.com"]) sampleEngine []).1 =
      (batch emptyDataPoints, none) :=
  ⟨(Scrape_skips_dns_failures (sampleScraper ["a.test", "invalid.target.com", "silent.test"])
      sampleEngine [] sampleEngine [] (by decide) (by rfl)).2.1,
    ((Scrape_skips_dns_failures (sampleScraper ["invalid.target.com"]) sampleEngine []
      sampleEngine [] (by decide) (by rfl)).2.2 (by decide)).1⟩

/-- C9: let the targets be `pre ++ t :: post`, where no probe of `pre` is fatal and the probe of
`t` fails with an error whose chain holds no DNS error. Then `Scrape` returns the empty batch of
`pmetric.NewMetrics()`, which has no data point, whatever `pre` has contributed, together with
the error that names `t` and wraps the error of its probe; and the world is left as the probe of
`t` left it, so no target of `post` is probed. -/
theorem Scrape_fatal_error {W : Type} (s : pingScraper) (eng : Engine W) (w w2 : W)
    (pre : List Target) (t : Target) (post : List Target) (err : GoError)
    (hts : s.targets = pre ++ t :: post)
    (hpre : ∀ r ∈ (probeAll s eng pre w).1, fatal r = false)
    (hp : ping s eng t (probeAll s eng pre w).2 = (.error err, w2))
    (hdns : asDNSError err = false) :
    Scrape s eng w =
      (({ resourceMetrics := [] },
        some (GoError.wrap (WrapContext.executePinger t.Target) err)), w2) ∧
    (Scrape s eng w).1.1.dataPointCount = 0 ∧
    (Scrape s eng w).2 = (probeAll s eng (pre ++ [t]) w).2 := by
  have hS : Scrape s eng w =
      (({ resourceMetrics := [] },
        some (GoError.wrap (WrapContext.executePinger t.Target) err)), w2) := by
    simp only [Scrape]
    rw [hts, scrapeTargets_of_fatal s eng pre t post err w2 emptyDataPoints w hpre hp hdns]
    rfl
  refine ⟨hS, ?_, ?_⟩
  · rw [hS]; rfl
  · rw [hS, probeAll_append_singleton, hp]

/-- C9, at the sample engine: after a successful first target, the run against `denied.test`
fails; the scrape returns the empty batch and the error naming `denied.test`, and the engine has
seen no call for the third target. -/
theorem Scrape_fatal_error_witness :
    Scrape (sampleScraper ["a.test", "denied.test", "silent.test"]) sampleEngine [] =
      ((NewMetrics,
        some (GoError.wrap (WrapContext.executePinger "denied.test")
          (GoError.wrap WrapContext.runPinger (GoError.other "socket: permission denied")))),
        [EngineCall.newPinger "a.test",
          EngineCall.run { addr := "a.test", Count := 4, Timeout := 5 * Second },
          EngineCall.newPinger "denied.test",
          EngineCall.run { addr := "denied.test", Count := 4, Timeout := 5 * Second }]) :=
  (Scrape_fatal_error (sampleScraper ["a.test", "denied.test", "silent.test"]) sampleEngine []
    [EngineCall.newPinger "a.test",
      EngineCall.run { addr := "a.test", Count := 4, Timeout := 5 * Second },
      EngineCall.newPinger "denied.test",
      EngineCall.run { addr := "denied.test", Count := 4, Timeout := 5 * Second }]
    [{ Target := "a.test", PingCount := none, PingTimeout := none }]
    { Target := "denied.test", PingCount := none, PingTimeout := none }
    [{ Target := "silent.test", PingCount := none, PingTimeout := none }]
    (GoError.wrap WrapContext.runPinger (GoError.other "socket: permission denied"))
    rfl (by decide) rfl rfl).1

/-- C10: for a successful probe, the loop body of `Scrape` appends to `ping.rtt` one point per
received packet, in receipt order, valued at the round-trip time in nanoseconds divided by 1e6,
stamped with the packet's receipt time and carrying `net.peer.ip` = the packet's address,
`net.peer.name` = the address of the statistics and `tag` = the scraper's tag; and in a scrape
without fatal probe the `ping.rtt` stream of the returned batch is these points over the
successful probes in target order. -/
theorem Scrape_rtt_points {W : Type} (s : pingScraper) (eng : Engine W) (w : W) :
    (∀ (dps : DataPoints) (res : pingResult),
      (appendResult s.tag dps res).rttMetricDataPoints =
        dps.rttMetricDataPoints ++ res.Packets.map (fun pkt =>
          { value := (pkt.Packet.Rtt : ℚ) / 1000000
            timestamp := NewTimestampFromTime pkt.Timestamp
            attributes := [("net.peer.ip", pkt.Packet.Addr), ("net.peer.name", res.Stats.Addr),
              ("tag", s.tag)] })) ∧
    ((∀ r ∈ (probeAll s eng s.targets w).1, fatal r = false) →
      ∃ dps : DataPoints,
        (Scrape s eng w).1 = (batch dps, none) ∧
        dps.rttMetricDataPoints =
          (successes (probeAll s eng s.targets w).1).flatMap (fun res =>
            res.Packets.map (fun pkt =>
              { value := (pkt.Packet.Rtt : ℚ) / 1000000
                timestamp := NewTimestampFromTime pkt.Timestamp
                attributes := [("net.peer.ip", pkt.Packet.Addr),
                  ("net.peer.name", res.Stats.Addr), ("tag", s.tag)] }))) := by
  constructor
  · intro dps res
    exact appendResult_rtt s.tag dps res
  · intro hnf
    refine ⟨(successes (probeAll s eng s.targets w).1).foldl (appendResult s.tag) emptyDataPoints,
      ?_, ?_⟩
    · simp only [Scrape]
      rw [scrapeTargets_of_no_fatal s eng s.targets emptyDataPoints w hnf]
    · rw [foldl_appendResult_rtt]
      rfl

/-- C10, at the sample engine with the unresolvable name between two reachable targets: four
`ping.rtt` points, those of `a.test` before those of `b.test`, each target's in receipt order. -/
theorem Scrape_rtt_points_witness :
    ∃ dps : DataPoints,
      (Scrape (sampleScraper ["a.test", "invalid.target.com", "b.test"]) sampleEngine []).1 =
        (batch dps, none) ∧
      dps.rttMetricDataPoints =
        [{ value := ((11000000 : Int) : ℚ) / 1000000, timestamp := 1700000001000000000,
           attributes := [("net.peer.ip", "192.0.2.1"), ("net.peer.name", "a.test"),
             ("tag", "prod")] },
         { value := ((13000000 : Int) : ℚ) / 1000000, timestamp := 1700000002000000000,
           attributes := [("net.peer.ip", "192.0.2.1"), ("net.peer.name", "a.test"),
             ("tag", "prod")] },
         { value := ((11000000 : Int) : ℚ) / 1000000, timestamp := 1700000001000000000,
           attributes := [("net.peer.ip", "192.0.2.1"), ("net.peer.name", "b.test"),
             ("tag", "prod")] },
         { value := ((13000000 : Int) : ℚ) / 1000000, timestamp := 1700000002000000000,
           attributes := [("net.peer.ip", "192.0.2.1"), ("net.peer.name", "b.test"),
             ("tag", "prod")] }] :=
  (Scrape_rtt_points (sampleScraper ["a.test", "invalid.target.com", "b.test"]) sampleEngine
    []).2 (by decide)

/-- C11: for a successful probe, with or without received packets, the loop body of `Scrape`
appends one point to each of `ping.rtt.min`, `ping.rtt.max`, `ping.rtt.avg`, `ping.rtt.stddev`,
valued at the statistic in nanoseconds divided by 1e6, and one to `ping.loss.ratio`; each of the
five carries the completion time of the statistics and `net.peer.ip` = the resolved IP,
`net.peer.name` = the resolved address, `tag` = the scraper's tag. In a scrape without fatal
probe each aggregate stream of the returned batch lists these points over the successful probes
in target order, so its k-th point belongs to the k-th successfully probed target. -/
theorem Scrape_stats_points {W : Type} (s : pingScraper) (eng : Engine W) (w : W) :
    (∀ (res : pingResult) (value : ℚ),
      statsPoint s.tag res value =
        { value := value
          timestamp := NewTimestampFromTime res.StatsTimestamp
          attributes := [("net.peer.ip", res.Stats.IPAddr), ("net.peer.name", res.Stats.Addr),
            ("tag", s.tag)] }) ∧
    (∀ (dps : DataPoints) (res : pingResult),
      (appendResult s.tag dps res).minRttMetricDataPoints =
        dps.minRttMetricDataPoints ++
          [statsPoint s.tag res ((res.Stats.MinRtt : ℚ) / 1000000)] ∧
      (appendResult s.tag dps res).maxRttMetricDataPoints =
        dps.maxRttMetricDataPoints ++
          [statsPoint s.tag res ((res.Stats.MaxRtt : ℚ) / 1000000)] ∧
      (appendResult s.tag dps res).avgRttMetricDataPoints =
        dps.avgRttMetricDataPoints ++
          [statsPoint s.tag res ((res.Stats.AvgRtt : ℚ) / 1000000)] ∧
      (appendResult s.tag dps res).stddevRttMetricDataPoints =
        dps.stddevRttMetricDataPoints ++
          [statsPoint s.tag res ((res.Stats.StdDevRtt : ℚ) / 1000000)] ∧
      (appendResult s.tag dps res).lossRatioMetricDataPoints =
        dps.lossRatioMetricDataPoints ++
          [statsPoint s.tag res (res.Stats.PacketLoss / 100)]) ∧
    ((∀ r ∈ (probeAll s eng s.targets w).1, fatal r = false) →
      ∃ dps : DataPoints,
        (Scrape s eng w).1 = (batch dps, none) ∧
        dps.minRttMetricDataPoints =
          (successes (probeAll s eng s.targets w).1).map
            (fun res => statsPoint s.tag res ((res.Stats.MinRtt : ℚ) / 1000000)) ∧
        dps.maxRttMetricDataPoints =
          (successes (probeAll s eng s.targets w).1).map
            (fun res => statsPoint s.tag res ((res.Stats.MaxRtt : ℚ) / 1000000)) ∧
        dps.avgRttMetricDataPoints =
          (successes (probeAll s eng s.targets w).1).map
            (fun res => statsPoint s.tag res ((res.Stats.AvgRtt : ℚ) / 1000000)) ∧
        dps.stddevRttMetricDataPoints =
          (successes (probeAll s eng s.targets w).1).map
            (fun res => statsPoint s.tag res ((res.Stats.StdDevRtt : ℚ) / 1000000)) ∧
        dps.lossRatioMetricDataPoints =
          (successes (probeAll s eng s.targets w).1).map
            (fun res => statsPoint s.tag res (res.Stats.PacketLoss / 100))) := by
  refine ⟨fun _ _ => rfl, fun dps res => appendResult_stats s.tag dps res, ?_⟩
  intro hnf
  refine ⟨(successes (probeAll s eng s.targets w).1).foldl (appendResult s.tag) emptyDataPoints,
    Scrape_of_no_fatal s eng w hnf, ?_⟩
  obtain ⟨h1, h2, h3, h4, h5⟩ :=
    foldl_appendResult_stats s.tag (successes (probeAll s eng s.targets w).1) emptyDataPoints
  rw [h1, h2, h3, h4, h5]
  simp [emptyDataPoints]

/-- C11, at the sample engine with a target that answers and one that answers nothing: the
`ping.rtt.min` stream has one point per target, in target order, each with the statistics'
completion time, resolved IP, resolved address and the tag. -/
theorem Scrape_stats_points_witness :
    ∃ dps : DataPoints,
      (Scrape (sampleScraper ["a.test", "silent.test"]) sampleEngine []).1 = (batch dps, none) ∧
      dps.minRttMetricDataPoints =
        [{ value := ((11000000 : Int) : ℚ) / 1000000, timestamp := 1700000003000000000,
           attributes := [("net.peer.ip", "192.0.2.1"), ("net.peer.name", "a.test"),
             ("tag", "prod")] },
         { value := ((11000000 : Int) : ℚ) / 1000000, timestamp := 1700000009000000000,
           attributes := [("net.peer.ip", "192.0.2.1"), ("net.peer.name", "silent.test"),
             ("tag", "prod")] }] :=
  match (Scrape_stats_points (sampleScraper ["a.test", "silent.test"]) sampleEngine []).2.2
    (by decide) with
  | ⟨dps, h0, h1, _⟩ => ⟨dps, h0, h1⟩

/-- C12: the value of the `ping.loss.ratio` point of a successful probe is the loss percentage
of the statistics divided by 100, per probe and over a scrape without fatal probe. It lies
between 0 and 1 when the percentage lies between 0 and 100; and when the engine reports the
percentage of sent packets that were not received, it is 1 for no packet received out of at
least one sent and 0 when all sent packets were received. -/
theorem Scrape_loss_ratio {W : Type} (s : pingScraper) (eng : Engine W) (w : W) :
    (∀ (dps : DataPoints) (res : pingResult),
      (appendResult s.tag dps res).lossRatioMetricDataPoints.map (fun dp => dp.value) =
        dps.lossRatioMetricDataPoints.map (fun dp => dp.value) ++
          [res.Stats.PacketLoss / 100]) ∧
    ((∀ r ∈ (probeAll s eng s.targets w).1, fatal r = false) →
      ∃ dps : DataPoints,
        (Scrape s eng w).1 = (batch dps, none) ∧
        dps.lossRatioMetricDataPoints.map (fun dp => dp.value) =
          (successes (probeAll s eng s.targets w).1).map
            (fun res => res.Stats.PacketLoss / 100)) ∧
    (∀ stats : Statistics,
      (0 ≤ stats.PacketLoss → stats.PacketLoss ≤ 100 →
        0 ≤ stats.PacketLoss / 100 ∧ stats.PacketLoss / 100 ≤ 1) ∧
      (reportsLossPercentage stats → 1 ≤ stats.PacketsSent → stats.PacketsRecv = 0 →
        stats.PacketLoss / 100 = 1) ∧
      (reportsLossPercentage stats → 1 ≤ stats.PacketsSent →
        stats.PacketsRecv = stats.PacketsSent → stats.PacketLoss / 100 = 0)) := by
  refine ⟨?_, ?_, ?_⟩
  · intro dps res
    rw [(appendResult_stats s.tag dps res).2.2.2.2]
    simp [statsPoint]
  · intro hnf
    refine ⟨(successes (probeAll s eng s.targets w).1).foldl (appendResult s.tag)
      emptyDataPoints, Scrape_of_no_fatal s eng w hnf, ?_⟩
    rw [(foldl_appendResult_stats s.tag (successes (probeAll s eng s.targets w).1)
      emptyDataPoints).2.2.2.2]
    simp [emptyDataPoints, statsPoint]
  · intro stats
    refine ⟨?_, ?_, ?_⟩
    · intro h0 h1
      constructor
      · positivity
      · rw [div_le_one (by norm_num)]
        exact h1
    · intro hrep hsent hrecv
      have hne : (stats.PacketsSent : ℚ) ≠ 0 := by
        have : (1 : ℚ) ≤ (stats.PacketsSent : ℚ) := by exact_mod_cast hsent
        linarith
      rw [hrep, hrecv]
      push_cast
      field_simp
    · intro hrep _ hrecv
      rw [hrep, hrecv]
      simp

/-- C12, at the sample engine: the target that answers both packets sent has loss ratio 0, the
target that answers none of four has loss ratio 1. -/
theorem Scrape_loss_ratio_witness :
    (∃ dps : DataPoints,
      (Scrape (sampleScraper ["a.test", "silent.test"]) sampleEngine []).1 = (batch dps, none) ∧
      dps.lossRatioMetricDataPoints.map (fun dp => dp.value) =
        [(sampleStatistics "a.test" 2 2 0).PacketLoss / 100,
          (sampleStatistics "silent.test" 4 0 100).PacketLoss / 100]) ∧
    (sampleStatistics "a.test" 2 2 0).PacketLoss / 100 = 0 ∧
    (sampleStatistics "silent.test" 4 0 100).PacketLoss / 100 = 1 :=
  ⟨(Scrape_loss_ratio (sampleScraper ["a.test", "silent.test"]) sampleEngine []).2.1 (by decide),
    ((Scrape_loss_ratio (sampleScraper []) sampleEngine []).2.2
      (sampleStatistics "a.test" 2 2 0)).2.2
      (by norm_num [reportsLossPercentage, sampleStatistics]) (by decide) rfl,
    ((Scrape_loss_ratio (sampleScraper []) sampleEngine []).2.2
      (sampleStatistics "silent.test" 4 0 100)).2.1
      (by norm_num [reportsLossPercentage, sampleStatistics]) (by decide) rfl⟩

/-- C13: the registry only grows. After `Config.Validate`, with or without errors, a string is
registered exactly when it was registered before or is a target string of the configuration;
the registry after the call is the one before with new entries added, each a target string that
was not registered; and after any sequence of calls every string registered at the start or
seen as a target in one of the calls is registered. -/
theorem registry_only_grows (c : Config) (globalTargets : List String) :
    (∀ x, x ∈ (Validate c globalTargets).globalTargets ↔
      x ∈ globalTargets ∨ x ∈ c.Targets.map (fun t => t.Target)) ∧
    (∃ added : List String,
      (Validate c globalTargets).globalTargets = added ++ globalTargets ∧
      ∀ x ∈ added, x ∈ c.Targets.map (fun t => t.Target) ∧ x ∉ globalTargets) ∧
    (∀ (cs : List Config) (x : String),
      x ∈ registryAfter cs globalTargets ↔
        x ∈ globalTargets ∨ ∃ c1 ∈ cs, x ∈ c1.Targets.map (fun t => t.Target)) := by
  refine ⟨mem_Validate_globalTargets c globalTargets, ?_, fun cs x =>
    mem_registryAfter cs globalTargets x⟩
  rw [Validate_globalTargets]
  exact registry_suffix c.Targets 0 [] globalTargets

/-- C13, at `retryConfig`, whose validation fails: its target is registered all the same, next
to the entry that was there, and is still there after a later call. -/
theorem registry_only_grows_witness :
    (Validate retryConfig ["b.test"]).errs ≠ [] ∧
    "a.test" ∈ (Validate retryConfig ["b.test"]).globalTargets ∧
    "b.test" ∈ (Validate retryConfig ["b.test"]).globalTargets ∧
    "a.test" ∈ registryAfter [retryConfig, noTargetsConfig] ["b.test"] :=
  ⟨by decide,
    ((registry_only_grows retryConfig ["b.test"]).1 "a.test").mpr (Or.inr (by decide)),
    ((registry_only_grows retryConfig ["b.test"]).1 "b.test").mpr (Or.inl (by decide)),
    ((registry_only_grows retryConfig ["b.test"]).2.2 [retryConfig, noTargetsConfig]
      "a.test").mpr (Or.inr ⟨retryConfig, by decide, by decide⟩)⟩

end icmpreceiver
